import Mathlib

/-!
Verification development for the CustomCompoundBondForce component of the
OpenMM API (src/openmmapi/include/openmm/CustomCompoundBondForce.h).

The repository provides the class declaration, its inline getters and the
documented contracts of its methods.  The method bodies, the tabulated-function
spline, the expression evaluator and the context are not part of the sources,
so they are modelled here from the specification and from the header's
documentation comments.  C++ `double` values are modelled as exact rationals
(or reals where calculus is needed), `int` particle ids as `Int`, and
`std::vector` as `List`.
-/

/-- Mirror of `CustomCompoundBondForce::BondInfo`: the particle ids and the
per-bond parameter values of one bond. -/
structure BondInfo where
  particles : List Int
  parameters : List ℚ
deriving DecidableEq

/-- Mirror of `CustomCompoundBondForce::BondParameterInfo`: the name of one
declared per-bond parameter. -/
structure BondParameterInfo where
  name : String
deriving DecidableEq

/-- Mirror of `CustomCompoundBondForce::GlobalParameterInfo`: the name and the
default value of one global parameter. -/
structure GlobalParameterInfo where
  name : String
  defaultValue : ℚ
deriving DecidableEq

/-- Mirror of `CustomCompoundBondForce::FunctionInfo`: a tabulated function,
uniformly sampled on the closed interval from `min` to `max`. -/
structure FunctionInfo where
  name : String
  values : List ℚ
  min : ℚ
  max : ℚ
deriving DecidableEq

/-- Mirror of the private state of `CustomCompoundBondForce`. -/
structure CustomCompoundBondForce where
  particlesPerBond : ℕ
  energyExpression : String
  bondParameters : List BondParameterInfo
  globalParameters : List GlobalParameterInfo
  bonds : List BondInfo
  functions : List FunctionInfo
deriving DecidableEq

namespace CustomCompoundBondForce

/-- Mirror of the constructor `CustomCompoundBondForce(numParticles, energy)`. -/
def create (numParticles : ℕ) (energy : String) : CustomCompoundBondForce :=
  ⟨numParticles, energy, [], [], [], []⟩

/-- Mirror of `getNumParticlesPerBond`. -/
def getNumParticlesPerBond (f : CustomCompoundBondForce) : ℕ :=
  f.particlesPerBond

/-- Mirror of `getNumBonds`. -/
def getNumBonds (f : CustomCompoundBondForce) : ℕ :=
  f.bonds.length

/-- Mirror of `getNumPerBondParameters`. -/
def getNumPerBondParameters (f : CustomCompoundBondForce) : ℕ :=
  f.bondParameters.length

/-- Mirror of `getNumGlobalParameters`. -/
def getNumGlobalParameters (f : CustomCompoundBondForce) : ℕ :=
  f.globalParameters.length

/-- Mirror of `getNumFunctions`. -/
def getNumFunctions (f : CustomCompoundBondForce) : ℕ :=
  f.functions.length

/-- Mirror of `getEnergyFunction`. -/
def getEnergyFunction (f : CustomCompoundBondForce) : String :=
  f.energyExpression

/-- Modelled from the spec: `setEnergyFunction` (body absent from the sources)
replaces the stored algebraic expression and touches nothing else. -/
def setEnergyFunction (f : CustomCompoundBondForce) (energy : String) :
    CustomCompoundBondForce :=
  { f with energyExpression := energy }

/-- Modelled from the spec: `addPerBondParameter` (body absent from the
sources) appends a per-bond parameter declaration and, per the header's
documentation, returns the index of the parameter that was added. -/
def addPerBondParameter (f : CustomCompoundBondForce) (name : String) :
    ℕ × CustomCompoundBondForce :=
  (f.bondParameters.length,
    { f with bondParameters := f.bondParameters ++ [⟨name⟩] })

/-- Modelled from the spec: `setPerBondParameterName` (body absent from the
sources) renames an existing per-bond parameter in place. -/
def setPerBondParameterName (f : CustomCompoundBondForce) (index : ℕ)
    (name : String) : CustomCompoundBondForce :=
  { f with bondParameters := f.bondParameters.set index ⟨name⟩ }

/-- Modelled from the spec: `addGlobalParameter` (body absent from the
sources) appends a global parameter declaration with its default value and
returns the index of the parameter that was added. -/
def addGlobalParameter (f : CustomCompoundBondForce) (name : String)
    (defaultValue : ℚ) : ℕ × CustomCompoundBondForce :=
  (f.globalParameters.length,
    { f with globalParameters := f.globalParameters ++ [⟨name, defaultValue⟩] })

/-- Modelled from the spec: `setGlobalParameterName` (body absent from the
sources). -/
def setGlobalParameterName (f : CustomCompoundBondForce) (index : ℕ)
    (name : String) : CustomCompoundBondForce :=
  { f with globalParameters :=
      match f.globalParameters.get? index with
      | some g => f.globalParameters.set index ⟨name, g.defaultValue⟩
      | none => f.globalParameters }

/-- Modelled from the spec: `setGlobalParameterDefaultValue` (body absent from
the sources). -/
def setGlobalParameterDefaultValue (f : CustomCompoundBondForce) (index : ℕ)
    (defaultValue : ℚ) : CustomCompoundBondForce :=
  { f with globalParameters :=
      match f.globalParameters.get? index with
      | some g => f.globalParameters.set index ⟨g.name, defaultValue⟩
      | none => f.globalParameters }

/-- Failure modes of the configuration API.  The spec classifies all of these
as build-time failures, reported immediately and fatally. -/
inductive ApiError where
  | wrongNumParticles
  | wrongNumParameters
  | indexOutOfRange
  | tooFewTabulatedValues
  | invalidFunctionDomain
  | particleIndexOutOfRange
  | bondCountChanged
deriving DecidableEq

/-- Modelled from the spec: `addBond` (body absent from the sources) appends a
bond after validating that the particle tuple has `particlesPerBond` entries
and that the parameter-value count equals the declared per-bond parameter
count; a violation is an immediate fatal error.  On success it returns the
index of the bond that was added. -/
def addBond (f : CustomCompoundBondForce) (particles : List Int)
    (parameters : List ℚ) : Except ApiError (ℕ × CustomCompoundBondForce) :=
  if particles.length ≠ f.particlesPerBond then
    Except.error ApiError.wrongNumParticles
  else if parameters.length ≠ f.bondParameters.length then
    Except.error ApiError.wrongNumParameters
  else
    Except.ok (f.bonds.length, { f with bonds := f.bonds ++ [⟨particles, parameters⟩] })

/-- Mirror of `getBondParameters`: the stored particle ids and parameter
values of the bond at `index`. -/
def getBondParameters (f : CustomCompoundBondForce) (index : ℕ) :
    Option BondInfo :=
  f.bonds[index]?

/-- Modelled from the spec: `setBondParameters` (body absent from the sources)
overwrites the bond at `index` under the same validation as `addBond`. -/
def setBondParameters (f : CustomCompoundBondForce) (index : ℕ)
    (particles : List Int) (parameters : List ℚ) :
    Except ApiError CustomCompoundBondForce :=
  if index ≥ f.bonds.length then
    Except.error ApiError.indexOutOfRange
  else if particles.length ≠ f.particlesPerBond then
    Except.error ApiError.wrongNumParticles
  else if parameters.length ≠ f.bondParameters.length then
    Except.error ApiError.wrongNumParameters
  else
    Except.ok { f with bonds := f.bonds.set index ⟨particles, parameters⟩ }

/-- Modelled from the spec: `addFunction` (body absent from the sources)
appends a tabulated function after validating that it has at least two sample
values and a non-empty domain; a violation is an immediate fatal error.  On
success it returns the index of the function that was added. -/
def addFunction (f : CustomCompoundBondForce) (name : String)
    (values : List ℚ) (fmin fmax : ℚ) :
    Except ApiError (ℕ × CustomCompoundBondForce) :=
  if values.length < 2 then
    Except.error ApiError.tooFewTabulatedValues
  else if fmax ≤ fmin then
    Except.error ApiError.invalidFunctionDomain
  else
    Except.ok (f.functions.length,
      { f with functions := f.functions ++ [⟨name, values, fmin, fmax⟩] })

/-- Mirror of `getFunctionParameters`: the stored name, sample values and
domain of the tabulated function at `index`. -/
def getFunctionParameters (f : CustomCompoundBondForce) (index : ℕ) :
    Option FunctionInfo :=
  f.functions[index]?

/-- Modelled from the spec: `setFunctionParameters` (body absent from the
sources) overwrites the tabulated function at `index` under the same
validation as `addFunction`. -/
def setFunctionParameters (f : CustomCompoundBondForce) (index : ℕ)
    (name : String) (values : List ℚ) (fmin fmax : ℚ) :
    Except ApiError CustomCompoundBondForce :=
  if index ≥ f.functions.length then
    Except.error ApiError.indexOutOfRange
  else if values.length < 2 then
    Except.error ApiError.tooFewTabulatedValues
  else if fmax ≤ fmin then
    Except.error ApiError.invalidFunctionDomain
  else
    Except.ok { f with functions := f.functions.set index ⟨name, values, fmin, fmax⟩ }

/-- Modelled from the spec: the bond data visible to a built simulation
context (the context itself is absent from the sources).  It records the
per-bond particle-id tuples, the per-bond parameter values, the per-bond
parameter schema, the energy expression, and a counter of structural builds of
the compiled expression. -/
structure ContextState where
  numParticles : ℕ
  particleIds : List (List Int)
  paramValues : List (List ℚ)
  perBondParameterNames : List String
  energyExpression : String
  structuralBuildCount : ℕ
deriving DecidableEq

/-- Decidable form of the per-bond invariant: the parameter-value count
equals the declared schema length and every particle id is a valid index into
a particle set of size `sysN`. -/
def bondValid (sysN : ℕ) (schemaLen : ℕ) (b : BondInfo) : Bool :=
  b.parameters.length == schemaLen &&
    b.particles.all fun pid => decide (0 ≤ pid ∧ pid < (sysN : Int))

/-- Modelled from the spec: building a context from a force (the build step is
absent from the sources).  Per §7 of the spec, a bond particle id outside the
valid particle range or a parameter-value count mismatching the declared
schema is a fatal build-time failure; otherwise the context snapshots the bond
data and compiles the expression once (build counter 1). -/
def buildContext (sysN : ℕ) (f : CustomCompoundBondForce) :
    Except CustomCompoundBondForce.ApiError ContextState :=
  if ¬ f.bonds.all fun b => b.parameters.length == f.bondParameters.length then
    Except.error CustomCompoundBondForce.ApiError.wrongNumParameters
  else if ¬ f.bonds.all fun b =>
      b.particles.all fun pid => decide (0 ≤ pid ∧ pid < (sysN : Int)) then
    Except.error CustomCompoundBondForce.ApiError.particleIndexOutOfRange
  else
    Except.ok ⟨sysN, f.bonds.map (·.particles), f.bonds.map (·.parameters),
      f.bondParameters.map (·.name), f.energyExpression, 1⟩

/-- Modelled from the spec: `updateParametersInContext` (body absent from the
sources).  Per the header's documentation, the only information it updates is
the values of per-bond parameters; the set of particles involved in a bond
cannot be changed, nor can new bonds be added, and no structural rebuild of
the compiled expression occurs. -/
def updateParametersInContext (f : CustomCompoundBondForce)
    (ctx : ContextState) : Except CustomCompoundBondForce.ApiError ContextState :=
  if f.bonds.length ≠ ctx.paramValues.length then
    Except.error CustomCompoundBondForce.ApiError.bondCountChanged
  else
    Except.ok { ctx with paramValues := f.bonds.map (·.parameters) }

/-- Public mutating operations of the configuration API, used to state
invariants that hold across every operation.  Fallible operations leave the
force unchanged when they report an error. -/
inductive ForceOp where
  | setEnergy (energy : String)
  | addPerBondParam (name : String)
  | setPerBondParamName (index : ℕ) (name : String)
  | addGlobalParam (name : String) (defaultValue : ℚ)
  | setGlobalParamName (index : ℕ) (name : String)
  | setGlobalParamDefault (index : ℕ) (defaultValue : ℚ)
  | addBondOp (particles : List Int) (parameters : List ℚ)
  | setBondParams (index : ℕ) (particles : List Int) (parameters : List ℚ)
  | addFunctionOp (name : String) (values : List ℚ) (fmin fmax : ℚ)
  | setFunctionParams (index : ℕ) (name : String) (values : List ℚ) (fmin fmax : ℚ)

/-- Result of one public operation on the force object: the new force state
(unchanged when the operation fails). -/
def applyOp (op : ForceOp) (f : CustomCompoundBondForce) :
    CustomCompoundBondForce :=
  match op with
  | ForceOp.setEnergy e => f.setEnergyFunction e
  | ForceOp.addPerBondParam nm => (f.addPerBondParameter nm).2
  | ForceOp.setPerBondParamName i nm => f.setPerBondParameterName i nm
  | ForceOp.addGlobalParam nm dv => (f.addGlobalParameter nm dv).2
  | ForceOp.setGlobalParamName i nm => f.setGlobalParameterName i nm
  | ForceOp.setGlobalParamDefault i dv => f.setGlobalParameterDefaultValue i dv
  | ForceOp.addBondOp ps vs =>
      match f.addBond ps vs with
      | Except.ok r => r.2
      | Except.error _ => f
  | ForceOp.setBondParams i ps vs =>
      match f.setBondParameters i ps vs with
      | Except.ok f2 => f2
      | Except.error _ => f
  | ForceOp.addFunctionOp nm vals mn mx =>
      match f.addFunction nm vals mn mx with
      | Except.ok r => r.2
      | Except.error _ => f
  | ForceOp.setFunctionParams i nm vals mn mx =>
      match f.setFunctionParameters i nm vals mn mx with
      | Except.ok f2 => f2
      | Except.error _ => f

end CustomCompoundBondForce

/-! Tabulated function: natural cubic spline over uniformly spaced samples,
modelled from §4.2 of the spec (the spline code is absent from the sources).
All arithmetic is exact rational arithmetic. -/

/-- Interior second differences `y(i-1) - 2*y(i) + y(i+1)` of consecutive
sample triples, the right-hand side of the natural-spline tridiagonal
system up to scaling. -/
def secondDifferences : List ℚ → List ℚ
  | a :: b :: c :: rest => (a - 2 * b + c) :: secondDifferences (b :: c :: rest)
  | _ => []

/-- Forward sweep of the tridiagonal solve for the system with unit
off-diagonals and diagonal 4: produces the modified coefficients `(c, d)` of
each interior row. -/
def thomasSweep : List ℚ → ℚ → ℚ → List (ℚ × ℚ)
  | [], _, _ => []
  | r :: rest, cPrev, dPrev =>
    let denom := 4 - cPrev
    let c := 1 / denom
    let d := (r - dPrev) / denom
    (c, d) :: thomasSweep rest c d

/-- Back substitution over the reversed sweep output: recovers the interior
unknowns from the last one backwards. -/
def backSubstitute : List (ℚ × ℚ) → ℚ → List ℚ
  | [], _ => []
  | (c, d) :: rest, mNext =>
    let m := d - c * mNext
    m :: backSubstitute rest m

/-- Second derivatives of the natural cubic spline through samples `ys` with
uniform spacing `h`: zero at both endpoints (the natural boundary condition),
interior values from the tridiagonal system
`m(i-1) + 4*m(i) + m(i+1) = 6*(y(i+1) - 2*y(i) + y(i-1)) / h^2`. -/
def naturalSplineSecondDerivs (ys : List ℚ) (h : ℚ) : List ℚ :=
  let rhs := (secondDifferences ys).map fun v => 6 * v / h ^ 2
  let interior := (backSubstitute (thomasSweep rhs 0 0).reverse 0).reverse
  0 :: (interior ++ [0])

/-- Spline data built once from a tabulated function declaration: the samples,
the second derivatives from the natural-spline solve, and the domain. -/
structure SplineData where
  ys : List ℚ
  ms : List ℚ
  fmin : ℚ
  fmax : ℚ
deriving DecidableEq

/-- Uniform knot spacing of a spline with `M` samples. -/
def SplineData.spacing (s : SplineData) : ℚ :=
  (s.fmax - s.fmin) / ((s.ys.length : ℚ) - 1)

/-- Position of grid point `i`. -/
def SplineData.knot (s : SplineData) (i : ℕ) : ℚ :=
  s.fmin + i * s.spacing

/-- Build step of the tabulated function: the spline coefficients are
constructed once, at declaration or update time. -/
def buildSpline (fi : FunctionInfo) : SplineData :=
  let h := (fi.max - fi.min) / ((fi.values.length : ℚ) - 1)
  ⟨fi.values, naturalSplineSecondDerivs fi.values h, fi.min, fi.max⟩

/-- Index of the interval bracketing scaled coordinate `sc`, located in O(1)
by flooring the scaled index and clamping to the last interval. -/
def locateIndex (numSamples : ℕ) (sc : ℚ) : ℕ :=
  min (Int.toNat ⌊sc⌋) (numSamples - 2)

/-- Value of cubic segment `i` of the spline at `x` (standard natural-spline
segment form with local coordinate `t` in `[0, 1]`). -/
def SplineData.segmentValue (s : SplineData) (i : ℕ) (x : ℚ) : ℚ :=
  let h := s.spacing
  let t := (x - s.knot i) / h
  let a := 1 - t
  a * s.ys.getD i 0 + t * s.ys.getD (i + 1) 0 +
    ((a ^ 3 - a) * s.ms.getD i 0 + (t ^ 3 - t) * s.ms.getD (i + 1) 0) * h ^ 2 / 6

/-- First derivative of cubic segment `i` of the spline at `x`. -/
def SplineData.segmentDeriv (s : SplineData) (i : ℕ) (x : ℚ) : ℚ :=
  let h := s.spacing
  let t := (x - s.knot i) / h
  let a := 1 - t
  (s.ys.getD (i + 1) 0 - s.ys.getD i 0) / h +
    ((3 * t ^ 2 - 1) * s.ms.getD (i + 1) 0 - (3 * a ^ 2 - 1) * s.ms.getD i 0) * h / 6

/-- Evaluation of the tabulated function: zero value and zero derivative
outside the domain; inside, the value and first derivative of the cubic
segment found by the O(1) scaled-index lookup. -/
def SplineData.evaluate (s : SplineData) (x : ℚ) : ℚ × ℚ :=
  if x < s.fmin ∨ s.fmax < x then (0, 0)
  else
    let sc := (x - s.fmin) / s.spacing
    let i := locateIndex s.ys.length sc
    (s.segmentValue i x, s.segmentDeriv i x)

/-! Geometry primitives and the bond evaluator's force conversion, modelled
from §4.1 and §4.4 of the spec (the evaluation engine is absent from the
sources).  Positions are vectors in Euclidean 3-space. -/

/-- Position vector of one particle. -/
abbrev Vec3 := EuclideanSpace ℝ (Fin 3)

/-- Positions of the `n` particles of one bond, with the Euclidean (L2)
structure so that gradients of the energy are again position tuples. -/
abbrev Positions (n : ℕ) := PiLp 2 fun _ : Fin n => Vec3

/-- Modelled from the spec: the distance primitive `distance(a,b) = |b - a|`
of §4.1 (the geometry code is absent from the sources). -/
noncomputable def distancePrim (a b : Vec3) : ℝ := ‖b - a‖

/-- Modelled from the spec: closed-form gradient of the distance with respect
to its first argument, `-(b-a)/|b-a|`. -/
noncomputable def distGradFirst (a b : Vec3) : Vec3 := -((1 / ‖b - a‖) • (b - a))

/-- Modelled from the spec: closed-form gradient of the distance with respect
to its second argument, `(b-a)/|b-a|`. -/
noncomputable def distGradSecond (a b : Vec3) : Vec3 := (1 / ‖b - a‖) • (b - a)

/-- Energy of one bond with `N = 2` and expression `distance(p1,p2)`: the
compiled expression evaluates to the distance primitive itself. -/
noncomputable def distBondEnergy (a b : Vec3) : ℝ := distancePrim a b

/-- Modelled from the spec: force on `p1` is the negative gradient of the
energy with respect to the first position (§4.4 (c)). -/
noncomputable def distForceFirst (a b : Vec3) : Vec3 := -distGradFirst a b

/-- Modelled from the spec: force on `p2` is the negative gradient of the
energy with respect to the second position. -/
noncomputable def distForceSecond (a b : Vec3) : Vec3 := -distGradSecond a b

/-- Cross product of two 3-vectors, used by the angle and dihedral
primitives. -/
noncomputable def crossProd (u v : Vec3) : Vec3 :=
  crossProduct (R := ℝ) u v

/-- Two-argument arctangent `atan2(y, x)`: the argument of the complex number
`x + y*i`, in the interval from `-pi` exclusive to `pi` inclusive. -/
noncomputable def atan2 (y x : ℝ) : ℝ := Complex.arg ⟨x, y⟩

/-- Modelled from the spec: the angle primitive `angle(a,b,c)` of §4.1, the
angle at vertex `b` between `a - b` and `c - b`, computed via atan2 of the
cross-product magnitude and the dot product (the geometry code is absent from
the sources). -/
noncomputable def anglePrim (a b c : Vec3) : ℝ :=
  atan2 ‖crossProd (a - b) (c - b)‖ (inner (a - b) (c - b) : ℝ)

/-- Modelled from the spec: the dihedral primitive `dihedral(a,b,c,d)` of
§4.1, the signed dihedral angle about the axis `b`-`c`, computed via atan2 of
a triple-product term and a dot-product term (the geometry code is absent from
the sources). -/
noncomputable def dihedralPrim (a b c d : Vec3) : ℝ :=
  atan2 (‖c - b‖ * (inner (b - a) (crossProd (c - b) (d - c)) : ℝ))
    (inner (crossProd (b - a) (c - b)) (crossProd (c - b) (d - c)) : ℝ)

/-- All inter-particle distances of a position tuple. -/
noncomputable def distMatrix {n : ℕ} (p : Positions n) : Fin n → Fin n → ℝ :=
  fun i j => distancePrim (p i) (p j)

/-- All three-particle angles of a position tuple. -/
noncomputable def angleMatrix {n : ℕ} (p : Positions n) :
    Fin n → Fin n → Fin n → ℝ :=
  fun i j k => anglePrim (p i) (p j) (p k)

/-- All four-particle signed dihedral angles of a position tuple. -/
noncomputable def dihedralMatrix {n : ℕ} (p : Positions n) :
    Fin n → Fin n → Fin n → Fin n → ℝ :=
  fun i j k l => dihedralPrim (p i) (p j) (p k) (p l)

/-- Energy of a bond whose expression depends only on relative geometry: an
arbitrary function `g` of the distances, angles and signed dihedrals of the
bond's particles (and not of the raw coordinates). -/
noncomputable def relEnergy {n : ℕ}
    (g : (Fin n → Fin n → ℝ) → (Fin n → Fin n → Fin n → ℝ) →
      (Fin n → Fin n → Fin n → Fin n → ℝ) → ℝ)
    (p : Positions n) : ℝ :=
  g (distMatrix p) (angleMatrix p) (dihedralMatrix p)

/-- Rigid translation of every particle of a bond by `v`. -/
noncomputable def translatePos {n : ℕ} (p : Positions n) (v : Vec3) : Positions n :=
  fun i => p i + v

/-- Rigid motion of every particle of a bond by a linear map `R`. -/
noncomputable def rotatePos {n : ℕ} (R : Vec3 ≃ₗᵢ[ℝ] Vec3) (p : Positions n) : Positions n :=
  fun i => R (p i)

/-- Proper rotation: a linear isometry of orientation-preserving determinant
one (an element of SO(3)), as opposed to a reflection. -/
def IsProperRotation (R : Vec3 ≃ₗᵢ[ℝ] Vec3) : Prop :=
  LinearMap.det (R.toLinearEquiv : Vec3 →ₗ[ℝ] Vec3) = 1

/-- Modelled from the spec: analytic force contribution on particle `i` of a
bond, the negative gradient of the energy with respect to that particle's
position (§4.4 (c); the evaluation engine is absent from the sources). -/
noncomputable def particleForce {n : ℕ}
    (g : (Fin n → Fin n → ℝ) → (Fin n → Fin n → Fin n → ℝ) →
      (Fin n → Fin n → Fin n → Fin n → ℝ) → ℝ)
    (p : Positions n) (i : Fin n) : Vec3 :=
  -(gradient (relEnergy g) p i)

/-- Continuous linear map sending a single displacement to the uniform
displacement of all `n` particles. -/
noncomputable def constTuple (n : ℕ) : Vec3 →L[ℝ] Positions n :=
  ((PiLp.continuousLinearEquiv 2 ℝ fun _ : Fin n => Vec3).symm.toContinuousLinearMap).comp
    (ContinuousLinearMap.pi fun _ : Fin n => ContinuousLinearMap.id ℝ Vec3)

/-- Sample two-particle configuration: particle 0 at the origin, particle 1 at
unit distance along the first axis. -/
noncomputable def samplePositions2 : Positions 2 :=
  fun i => if i = 0 then 0 else EuclideanSpace.single 0 1

/-- Sample relative-geometry energy: the distance between particles 0
and 1. -/
noncomputable def sampleRelGeom :
    (Fin 2 → Fin 2 → ℝ) → (Fin 2 → Fin 2 → Fin 2 → ℝ) →
      (Fin 2 → Fin 2 → Fin 2 → Fin 2 → ℝ) → ℝ :=
  fun dm _ _ => dm 0 1

/-! Built-in discontinuous functions of the expression language, modelled from
the header's documentation and §4.3 of the spec (the expression library is
absent from the sources). -/

/-- Mirror of the documented built-in: `step(x) = 0` if `x` is less than 0,
`1` otherwise. -/
noncomputable def stepFn (x : ℝ) : ℝ := if x < 0 then 0 else 1

/-- Mirror of the documented built-in: `delta(x) = 1` if `x` is 0, `0`
otherwise. -/
noncomputable def deltaFn (x : ℝ) : ℝ := if x = 0 then 1 else 0

/-! ## Helper lemmas: success characterisations of the fallible operations -/

theorem addBond_ok {f : CustomCompoundBondForce} {ps : List Int} {vs : List ℚ}
    {r : ℕ × CustomCompoundBondForce} (h : f.addBond ps vs = Except.ok r) :
    r = (f.bonds.length, { f with bonds := f.bonds ++ [⟨ps, vs⟩] }) ∧
      ps.length = f.particlesPerBond ∧ vs.length = f.bondParameters.length := by
  unfold CustomCompoundBondForce.addBond at h
  split_ifs at h with h1 h2
  exact ⟨(Except.ok.inj h).symm, not_not.mp h1, not_not.mp h2⟩

theorem setBondParameters_ok {f : CustomCompoundBondForce} {i : ℕ}
    {ps : List Int} {vs : List ℚ} {f2 : CustomCompoundBondForce}
    (h : f.setBondParameters i ps vs = Except.ok f2) :
    f2 = { f with bonds := f.bonds.set i ⟨ps, vs⟩ } ∧ i < f.bonds.length ∧
      ps.length = f.particlesPerBond ∧ vs.length = f.bondParameters.length := by
  unfold CustomCompoundBondForce.setBondParameters at h
  split_ifs at h with h1 h2 h3
  exact ⟨(Except.ok.inj h).symm, lt_of_not_ge h1, not_not.mp h2, not_not.mp h3⟩

theorem addFunction_ok {f : CustomCompoundBondForce} {nm : String}
    {vals : List ℚ} {mn mx : ℚ} {r : ℕ × CustomCompoundBondForce}
    (h : f.addFunction nm vals mn mx = Except.ok r) :
    r = (f.functions.length,
        { f with functions := f.functions ++ [⟨nm, vals, mn, mx⟩] }) ∧
      2 ≤ vals.length ∧ mn < mx := by
  unfold CustomCompoundBondForce.addFunction at h
  split_ifs at h with h1 h2
  exact ⟨(Except.ok.inj h).symm, le_of_not_lt h1, lt_of_not_ge h2⟩

theorem setFunctionParameters_ok {f : CustomCompoundBondForce} {i : ℕ}
    {nm : String} {vals : List ℚ} {mn mx : ℚ} {f2 : CustomCompoundBondForce}
    (h : f.setFunctionParameters i nm vals mn mx = Except.ok f2) :
    f2 = { f with functions := f.functions.set i ⟨nm, vals, mn, mx⟩ } ∧
      i < f.functions.length ∧ 2 ≤ vals.length ∧ mn < mx := by
  unfold CustomCompoundBondForce.setFunctionParameters at h
  split_ifs at h with h1 h2 h3
  exact ⟨(Except.ok.inj h).symm, lt_of_not_ge h1, le_of_not_lt h2, lt_of_not_ge h3⟩

/-! ## Claim theorems -/

/-- C10: the number of particles per bond is fixed at construction:
`getNumParticlesPerBond` returns the `numParticles` value given to the
constructor, and no public operation changes it. -/
theorem claim_C10 :
    (∀ (numParticles : ℕ) (energy : String),
      (CustomCompoundBondForce.create numParticles energy).getNumParticlesPerBond
        = numParticles) ∧
    ∀ (op : CustomCompoundBondForce.ForceOp) (f : CustomCompoundBondForce),
      (CustomCompoundBondForce.applyOp op f).getNumParticlesPerBond
        = f.getNumParticlesPerBond := by
  refine ⟨fun n e => rfl, fun op f => ?_⟩
  cases op with
  | setEnergy e => rfl
  | addPerBondParam nm => rfl
  | setPerBondParamName i nm => rfl
  | addGlobalParam nm dv => rfl
  | setGlobalParamName i nm => rfl
  | setGlobalParamDefault i dv => rfl
  | addBondOp ps vs =>
    rcases hb : f.addBond ps vs with e | r
    · simp [CustomCompoundBondForce.applyOp, hb]
    · obtain ⟨rfl, -, -⟩ := addBond_ok hb
      simp [CustomCompoundBondForce.applyOp, hb,
        CustomCompoundBondForce.getNumParticlesPerBond]
  | setBondParams i ps vs =>
    rcases hb : f.setBondParameters i ps vs with e | f2
    · simp [CustomCompoundBondForce.applyOp, hb]
    · obtain ⟨rfl, -, -, -⟩ := setBondParameters_ok hb
      simp [CustomCompoundBondForce.applyOp, hb,
        CustomCompoundBondForce.getNumParticlesPerBond]
  | addFunctionOp nm vals mn mx =>
    rcases hb : f.addFunction nm vals mn mx with e | r
    · simp [CustomCompoundBondForce.applyOp, hb]
    · obtain ⟨rfl, -, -⟩ := addFunction_ok hb
      simp [CustomCompoundBondForce.applyOp, hb,
        CustomCompoundBondForce.getNumParticlesPerBond]
  | setFunctionParams i nm vals mn mx =>
    rcases hb : f.setFunctionParameters i nm vals mn mx with e | f2
    · simp [CustomCompoundBondForce.applyOp, hb]
    · obtain ⟨rfl, -, -, -⟩ := setFunctionParameters_ok hb
      simp [CustomCompoundBondForce.applyOp, hb,
        CustomCompoundBondForce.getNumParticlesPerBond]

open CustomCompoundBondForce

/-- C8: every add operation returns the index of the element it appended,
which equals the corresponding count before the call, and increments that
count by exactly one; and no public operation ever decreases any of the four
counts. -/
theorem claim_C8 :
    (∀ (f : CustomCompoundBondForce) (nm : String),
      (f.addPerBondParameter nm).1 = f.getNumPerBondParameters ∧
        (f.addPerBondParameter nm).2.getNumPerBondParameters
          = f.getNumPerBondParameters + 1) ∧
    (∀ (f : CustomCompoundBondForce) (nm : String) (dv : ℚ),
      (f.addGlobalParameter nm dv).1 = f.getNumGlobalParameters ∧
        (f.addGlobalParameter nm dv).2.getNumGlobalParameters
          = f.getNumGlobalParameters + 1) ∧
    (∀ (f : CustomCompoundBondForce) (ps : List Int) (vs : List ℚ)
        (r : ℕ × CustomCompoundBondForce), f.addBond ps vs = Except.ok r →
      r.1 = f.getNumBonds ∧ r.2.getNumBonds = f.getNumBonds + 1) ∧
    (∀ (f : CustomCompoundBondForce) (nm : String) (vals : List ℚ) (mn mx : ℚ)
        (r : ℕ × CustomCompoundBondForce),
      f.addFunction nm vals mn mx = Except.ok r →
      r.1 = f.getNumFunctions ∧ r.2.getNumFunctions = f.getNumFunctions + 1) ∧
    (∀ (op : ForceOp) (f : CustomCompoundBondForce),
      f.getNumBonds ≤ (applyOp op f).getNumBonds ∧
      f.getNumPerBondParameters ≤ (applyOp op f).getNumPerBondParameters ∧
      f.getNumGlobalParameters ≤ (applyOp op f).getNumGlobalParameters ∧
      f.getNumFunctions ≤ (applyOp op f).getNumFunctions) := by
  refine ⟨?_, ?_, ?_, ?_, ?_⟩
  · intro f nm
    exact ⟨rfl, by
      simp [addPerBondParameter, getNumPerBondParameters]⟩
  · intro f nm dv
    exact ⟨rfl, by
      simp [addGlobalParameter, getNumGlobalParameters]⟩
  · intro f ps vs r h
    obtain ⟨rfl, -, -⟩ := addBond_ok h
    exact ⟨rfl, by simp [getNumBonds]⟩
  · intro f nm vals mn mx r h
    obtain ⟨rfl, -, -⟩ := addFunction_ok h
    exact ⟨rfl, by simp [getNumFunctions]⟩
  · intro op f
    cases op with
    | setEnergy e => exact ⟨le_rfl, le_rfl, le_rfl, le_rfl⟩
    | addPerBondParam nm =>
      refine ⟨le_rfl, ?_, le_rfl, le_rfl⟩
      simp [applyOp, addPerBondParameter, getNumPerBondParameters]
    | setPerBondParamName i nm =>
      refine ⟨le_rfl, ?_, le_rfl, le_rfl⟩
      simp [applyOp, setPerBondParameterName, getNumPerBondParameters]
    | addGlobalParam nm dv =>
      refine ⟨le_rfl, le_rfl, ?_, le_rfl⟩
      simp [applyOp, addGlobalParameter, getNumGlobalParameters]
    | setGlobalParamName i nm =>
      refine ⟨le_rfl, le_rfl, ?_, le_rfl⟩
      cases hg : f.globalParameters[i]? <;>
        simp [applyOp, setGlobalParameterName, getNumGlobalParameters, hg]
    | setGlobalParamDefault i dv =>
      refine ⟨le_rfl, le_rfl, ?_, le_rfl⟩
      cases hg : f.globalParameters[i]? <;>
        simp [applyOp, setGlobalParameterDefaultValue, getNumGlobalParameters, hg]
    | addBondOp ps vs =>
      rcases hb : f.addBond ps vs with e | r
      · simp [applyOp, hb]
      · obtain ⟨rfl, -, -⟩ := addBond_ok hb
        simp only [applyOp, hb]
        refine ⟨?_, le_rfl, le_rfl, le_rfl⟩
        simp [getNumBonds]
    | setBondParams i ps vs =>
      rcases hb : f.setBondParameters i ps vs with e | f2
      · simp [applyOp, hb]
      · obtain ⟨rfl, -, -, -⟩ := setBondParameters_ok hb
        simp only [applyOp, hb]
        refine ⟨?_, le_rfl, le_rfl, le_rfl⟩
        simp [getNumBonds]
    | addFunctionOp nm vals mn mx =>
      rcases hb : f.addFunction nm vals mn mx with e | r
      · simp [applyOp, hb]
      · obtain ⟨rfl, -, -⟩ := addFunction_ok hb
        simp only [applyOp, hb]
        refine ⟨le_rfl, le_rfl, le_rfl, ?_⟩
        simp [getNumFunctions]
    | setFunctionParams i nm vals mn mx =>
      rcases hb : f.setFunctionParameters i nm vals mn mx with e | f2
      · simp [applyOp, hb]
      · obtain ⟨rfl, -, -, -⟩ := setFunctionParameters_ok hb
        simp only [applyOp, hb]
        refine ⟨le_rfl, le_rfl, le_rfl, ?_⟩
        simp [getNumFunctions]

/-- C8 witness: the fallible add operations applied to concrete inputs. -/
theorem claim_C8_witness :
    ((CustomCompoundBondForce.create 2 ("e")).addBond [0, 1] []
        = Except.ok (0, ⟨2, "e", [], [], [⟨[0, 1], []⟩], []⟩) ∧
      ((0 : ℕ), (⟨2, "e", [], [], [⟨[0, 1], []⟩], []⟩ : CustomCompoundBondForce)).1
          = (CustomCompoundBondForce.create 2 ("e")).getNumBonds ∧
        ((0 : ℕ), (⟨2, "e", [], [], [⟨[0, 1], []⟩], []⟩ : CustomCompoundBondForce)).2.getNumBonds
          = (CustomCompoundBondForce.create 2 ("e")).getNumBonds + 1) ∧
    ((CustomCompoundBondForce.create 2 ("e")).addFunction ("g") [0, 1] 0 1
        = Except.ok (0, ⟨2, "e", [], [], [], [⟨"g", [0, 1], 0, 1⟩]⟩) ∧
      ((0 : ℕ), (⟨2, "e", [], [], [], [⟨"g", [0, 1], 0, 1⟩]⟩ : CustomCompoundBondForce)).1
          = (CustomCompoundBondForce.create 2 ("e")).getNumFunctions ∧
        ((0 : ℕ), (⟨2, "e", [], [], [], [⟨"g", [0, 1], 0, 1⟩]⟩ : CustomCompoundBondForce)).2.getNumFunctions
          = (CustomCompoundBondForce.create 2 ("e")).getNumFunctions + 1) := by
  refine ⟨⟨rfl, ?_⟩, ⟨rfl, ?_⟩⟩
  · exact claim_C8.2.2.1 (CustomCompoundBondForce.create 2 ("e")) [0, 1] []
      (0, ⟨2, "e", [], [], [⟨[0, 1], []⟩], []⟩) rfl
  · exact claim_C8.2.2.2.1 (CustomCompoundBondForce.create 2 ("e")) ("g") [0, 1] 0 1
      (0, ⟨2, "e", [], [], [], [⟨"g", [0, 1], 0, 1⟩]⟩) rfl

/-- C9: storage round-trip: immediately after `addBond` (or
`setBondParameters` at index `i`), `getBondParameters` for that index returns
exactly the particle ids and parameter values passed in; likewise for
`addFunction`/`setFunctionParameters` and `getFunctionParameters`. -/
theorem claim_C9 :
    (∀ (f : CustomCompoundBondForce) (ps : List Int) (vs : List ℚ)
        (r : ℕ × CustomCompoundBondForce), f.addBond ps vs = Except.ok r →
      r.2.getBondParameters r.1 = some ⟨ps, vs⟩) ∧
    (∀ (f : CustomCompoundBondForce) (i : ℕ) (ps : List Int) (vs : List ℚ)
        (f2 : CustomCompoundBondForce), f.setBondParameters i ps vs = Except.ok f2 →
      f2.getBondParameters i = some ⟨ps, vs⟩) ∧
    (∀ (f : CustomCompoundBondForce) (nm : String) (vals : List ℚ) (mn mx : ℚ)
        (r : ℕ × CustomCompoundBondForce),
      f.addFunction nm vals mn mx = Except.ok r →
      r.2.getFunctionParameters r.1 = some ⟨nm, vals, mn, mx⟩) ∧
    (∀ (f : CustomCompoundBondForce) (i : ℕ) (nm : String) (vals : List ℚ)
        (mn mx : ℚ) (f2 : CustomCompoundBondForce),
      f.setFunctionParameters i nm vals mn mx = Except.ok f2 →
      f2.getFunctionParameters i = some ⟨nm, vals, mn, mx⟩) := by
  refine ⟨?_, ?_, ?_, ?_⟩
  · intro f ps vs r h
    obtain ⟨rfl, -, -⟩ := addBond_ok h
    simp [getBondParameters, List.getElem?_concat_length]
  · intro f i ps vs f2 h
    obtain ⟨rfl, hlt, -, -⟩ := setBondParameters_ok h
    simpa [getBondParameters] using List.getElem?_set_self (l := f.bonds)
      (a := (⟨ps, vs⟩ : BondInfo)) hlt
  · intro f nm vals mn mx r h
    obtain ⟨rfl, -, -⟩ := addFunction_ok h
    simp [getFunctionParameters, List.getElem?_concat_length]
  · intro f i nm vals mn mx f2 h
    obtain ⟨rfl, hlt, -, -⟩ := setFunctionParameters_ok h
    simpa [getFunctionParameters] using List.getElem?_set_self (l := f.functions)
      (a := (⟨nm, vals, mn, mx⟩ : FunctionInfo)) hlt

/-- C9 witness: the four round-trips on concrete inputs. -/
theorem claim_C9_witness :
    ((CustomCompoundBondForce.create 2 ("e")).addBond [0, 1] []
        = Except.ok (0, ⟨2, "e", [], [], [⟨[0, 1], []⟩], []⟩) ∧
      ((0 : ℕ), (⟨2, "e", [], [], [⟨[0, 1], []⟩], []⟩ : CustomCompoundBondForce)).2.getBondParameters
          ((0 : ℕ), (⟨2, "e", [], [], [⟨[0, 1], []⟩], []⟩ : CustomCompoundBondForce)).1
        = some ⟨[0, 1], []⟩) ∧
    ((⟨2, "e", [], [], [⟨[0, 1], []⟩], []⟩ : CustomCompoundBondForce).setBondParameters 0 [1, 0] []
        = Except.ok ⟨2, "e", [], [], [⟨[1, 0], []⟩], []⟩ ∧
      (⟨2, "e", [], [], [⟨[1, 0], []⟩], []⟩ : CustomCompoundBondForce).getBondParameters 0
        = some ⟨[1, 0], []⟩) ∧
    ((CustomCompoundBondForce.create 2 ("e")).addFunction ("g") [0, 1] 0 1
        = Except.ok (0, ⟨2, "e", [], [], [], [⟨"g", [0, 1], 0, 1⟩]⟩) ∧
      ((0 : ℕ), (⟨2, "e", [], [], [], [⟨"g", [0, 1], 0, 1⟩]⟩ : CustomCompoundBondForce)).2.getFunctionParameters
          ((0 : ℕ), (⟨2, "e", [], [], [], [⟨"g", [0, 1], 0, 1⟩]⟩ : CustomCompoundBondForce)).1
        = some ⟨"g", [0, 1], 0, 1⟩) ∧
    ((⟨2, "e", [], [], [], [⟨"g", [0, 1], 0, 1⟩]⟩ : CustomCompoundBondForce).setFunctionParameters 0 ("g") [1, 2] 0 2
        = Except.ok ⟨2, "e", [], [], [], [⟨"g", [1, 2], 0, 2⟩]⟩ ∧
      (⟨2, "e", [], [], [], [⟨"g", [1, 2], 0, 2⟩]⟩ : CustomCompoundBondForce).getFunctionParameters 0
        = some ⟨"g", [1, 2], 0, 2⟩) := by
  refine ⟨⟨rfl, ?_⟩, ⟨rfl, ?_⟩, ⟨rfl, ?_⟩, ⟨rfl, ?_⟩⟩
  · exact claim_C9.1 (CustomCompoundBondForce.create 2 ("e")) [0, 1] []
      (0, ⟨2, "e", [], [], [⟨[0, 1], []⟩], []⟩) rfl
  · exact claim_C9.2.1 (⟨2, "e", [], [], [⟨[0, 1], []⟩], []⟩ : CustomCompoundBondForce)
      0 [1, 0] [] ⟨2, "e", [], [], [⟨[1, 0], []⟩], []⟩ rfl
  · exact claim_C9.2.2.1 (CustomCompoundBondForce.create 2 ("e")) ("g") [0, 1] 0 1
      (0, ⟨2, "e", [], [], [], [⟨"g", [0, 1], 0, 1⟩]⟩) rfl
  · exact claim_C9.2.2.2 (⟨2, "e", [], [], [], [⟨"g", [0, 1], 0, 1⟩]⟩ : CustomCompoundBondForce)
      0 ("g") [1, 2] 0 2 ⟨2, "e", [], [], [], [⟨"g", [1, 2], 0, 2⟩]⟩ rfl

/-- C6: adding a bond (via `addBond` or `setBondParameters`) with a
parameter-value count differing from the declared per-bond parameter count is
an immediate failure; a particle id outside the valid particle range is a
build-time failure; and after a successful build every stored bond satisfies
the invariant (parameter-value count equals the declared count, every particle
id is a valid index into the context's particle set). -/
theorem claim_C6 :
    (∀ (f : CustomCompoundBondForce) (ps : List Int) (vs : List ℚ),
      vs.length ≠ f.getNumPerBondParameters →
      ∃ e, f.addBond ps vs = Except.error e) ∧
    (∀ (f : CustomCompoundBondForce) (i : ℕ) (ps : List Int) (vs : List ℚ),
      vs.length ≠ f.getNumPerBondParameters →
      ∃ e, f.setBondParameters i ps vs = Except.error e) ∧
    (∀ (sysN : ℕ) (f : CustomCompoundBondForce) (b : BondInfo) (pid : Int),
      b ∈ f.bonds → pid ∈ b.particles → (pid < 0 ∨ (sysN : Int) ≤ pid) →
      ∃ e, buildContext sysN f = Except.error e) ∧
    (∀ (sysN : ℕ) (f : CustomCompoundBondForce) (ctx : ContextState),
      buildContext sysN f = Except.ok ctx →
      ∀ b ∈ f.bonds, b.parameters.length = f.getNumPerBondParameters ∧
        ∀ pid ∈ b.particles, 0 ≤ pid ∧ pid < (sysN : Int)) := by
  refine ⟨?_, ?_, ?_, ?_⟩
  · intro f ps vs hvs
    unfold CustomCompoundBondForce.addBond
    split_ifs with h1 h2
    · exact ⟨_, rfl⟩
    · exact ⟨_, rfl⟩
    · exact absurd (not_not.mp h2) hvs
  · intro f i ps vs hvs
    unfold CustomCompoundBondForce.setBondParameters
    split_ifs with h1 h2 h3
    · exact ⟨_, rfl⟩
    · exact ⟨_, rfl⟩
    · exact ⟨_, rfl⟩
    · exact absurd (not_not.mp h3) hvs
  · intro sysN f b pid hb hpid hbad
    unfold CustomCompoundBondForce.buildContext
    split_ifs with h1 h2
    · refine ⟨ApiError.particleIndexOutOfRange, ?_⟩
      exfalso
      rw [List.all_eq_true] at h2
      have hp := h2 b hb
      rw [List.all_eq_true] at hp
      have := of_decide_eq_true (hp pid hpid)
      omega
    · exact ⟨_, rfl⟩
    · exact ⟨_, rfl⟩
  · intro sysN f ctx h
    unfold CustomCompoundBondForce.buildContext at h
    split_ifs at h with h1 h2
    intro b hb
    rw [List.all_eq_true] at h1 h2
    refine ⟨by simpa using h1 b hb, fun pid hpid => ?_⟩
    have hp := h2 b hb
    rw [List.all_eq_true] at hp
    exact of_decide_eq_true (hp pid hpid)

/-- C6 witness: rejected parameter-count mismatch, rejected out-of-range
particle id, and the invariant after a successful build, on concrete data. -/
theorem claim_C6_witness :
    (([3] : List ℚ).length ≠ (CustomCompoundBondForce.create 2 ("e")).getNumPerBondParameters ∧
      ∃ e, (CustomCompoundBondForce.create 2 ("e")).addBond [0, 1] [3] = Except.error e) ∧
    (([3] : List ℚ).length ≠ (CustomCompoundBondForce.create 2 ("e")).getNumPerBondParameters ∧
      ∃ e, (CustomCompoundBondForce.create 2 ("e")).setBondParameters 0 [0, 1] [3]
        = Except.error e) ∧
    ((⟨[0, 5], []⟩ : BondInfo) ∈
        (⟨2, "e", [], [], [⟨[0, 5], []⟩], []⟩ : CustomCompoundBondForce).bonds ∧
      (5 : Int) ∈ (⟨[0, 5], []⟩ : BondInfo).particles ∧
      ((5 : Int) < 0 ∨ ((2 : ℕ) : Int) ≤ 5) ∧
      ∃ e, buildContext 2 (⟨2, "e", [], [], [⟨[0, 5], []⟩], []⟩ : CustomCompoundBondForce)
        = Except.error e) ∧
    (buildContext 2 (⟨2, "e", [], [], [⟨[0, 1], []⟩], []⟩ : CustomCompoundBondForce)
        = Except.ok ⟨2, [[0, 1]], [[]], [], "e", 1⟩ ∧
      ∀ b ∈ (⟨2, "e", [], [], [⟨[0, 1], []⟩], []⟩ : CustomCompoundBondForce).bonds,
        b.parameters.length
            = (⟨2, "e", [], [], [⟨[0, 1], []⟩], []⟩ : CustomCompoundBondForce).getNumPerBondParameters ∧
          ∀ pid ∈ b.particles, 0 ≤ pid ∧ pid < ((2 : ℕ) : Int)) := by
  refine ⟨⟨by decide, ?_⟩, ⟨by decide, ?_⟩, ⟨by decide, by decide, by decide, ?_⟩, ⟨rfl, ?_⟩⟩
  · exact claim_C6.1 (CustomCompoundBondForce.create 2 ("e")) [0, 1] [3] (by decide)
  · exact claim_C6.2.1 (CustomCompoundBondForce.create 2 ("e")) 0 [0, 1] [3] (by decide)
  · exact claim_C6.2.2.1 2 (⟨2, "e", [], [], [⟨[0, 5], []⟩], []⟩ : CustomCompoundBondForce)
      ⟨[0, 5], []⟩ 5 (by decide) (by decide) (by decide)
  · exact claim_C6.2.2.2 2 (⟨2, "e", [], [], [⟨[0, 1], []⟩], []⟩ : CustomCompoundBondForce)
      ⟨2, [[0, 1]], [[]], [], "e", 1⟩ rfl

/-- C5: declaring a tabulated function with fewer than 2 sample values, or
with `min ≥ max`, via `addFunction` or `setFunctionParameters`, is an
immediate fatal failure: no force state with the function is returned. -/
theorem claim_C5 :
    ∀ (f : CustomCompoundBondForce) (i : ℕ) (nm : String) (vals : List ℚ)
      (mn mx : ℚ), vals.length < 2 ∨ mx ≤ mn →
      (∃ e, f.addFunction nm vals mn mx = Except.error e) ∧
      (∃ e, f.setFunctionParameters i nm vals mn mx = Except.error e) := by
  intro f i nm vals mn mx hbad
  constructor
  · unfold CustomCompoundBondForce.addFunction
    split_ifs with h1 h2
    · exact ⟨_, rfl⟩
    · exact ⟨_, rfl⟩
    · rcases hbad with hb | hb
      · exact absurd hb h1
      · exact absurd hb h2
  · unfold CustomCompoundBondForce.setFunctionParameters
    split_ifs with h1 h2 h3
    · exact ⟨_, rfl⟩
    · exact ⟨_, rfl⟩
    · exact ⟨_, rfl⟩
    · rcases hbad with hb | hb
      · exact absurd hb h2
      · exact absurd hb h3

/-- C5 witness: a single-sample function and an empty-domain function are both
rejected. -/
theorem claim_C5_witness :
    (([1] : List ℚ).length < 2 ∨ (1 : ℚ) ≤ 0) ∧
      (∃ e, (CustomCompoundBondForce.create 2 ("e")).addFunction ("g") [1] 0 1
        = Except.error e) ∧
      (∃ e, (CustomCompoundBondForce.create 2 ("e")).setFunctionParameters 0 ("g") [1] 0 1
        = Except.error e) :=
  ⟨by decide,
    claim_C5 (CustomCompoundBondForce.create 2 ("e")) 0 ("g") [1] 0 1 (by decide)⟩

/-- C1: pushing updated per-bond parameter values into a built context changes
only the per-bond parameter values seen by the context: particle-id tuples,
bond count, parameter schema, energy expression and particle count are
unchanged, and no structural rebuild of the compiled expression occurs. -/
theorem claim_C1 :
    ∀ (f : CustomCompoundBondForce) (ctx ctx2 : ContextState),
      updateParametersInContext f ctx = Except.ok ctx2 →
      ctx2.particleIds = ctx.particleIds ∧
      ctx2.paramValues.length = ctx.paramValues.length ∧
      ctx2.perBondParameterNames = ctx.perBondParameterNames ∧
      ctx2.energyExpression = ctx.energyExpression ∧
      ctx2.numParticles = ctx.numParticles ∧
      ctx2.structuralBuildCount = ctx.structuralBuildCount ∧
      ctx2.paramValues = f.bonds.map (·.parameters) := by
  intro f ctx ctx2 h
  unfold CustomCompoundBondForce.updateParametersInContext at h
  split_ifs at h with h1
  have hlen := not_not.mp h1
  cases Except.ok.inj h
  exact ⟨rfl, by simp [hlen], rfl, rfl, rfl, rfl, rfl⟩

/-- C1 witness: a parameter-value push on a concrete built context. -/
theorem claim_C1_witness :
    updateParametersInContext
        (⟨2, "e", [⟨"k"⟩], [], [⟨[0, 1], [5]⟩], []⟩ : CustomCompoundBondForce)
        (⟨4, [[0, 1]], [[2]], ["k"], "e", 1⟩ : ContextState)
      = Except.ok (⟨4, [[0, 1]], [[5]], ["k"], "e", 1⟩ : ContextState) ∧
    ((⟨4, [[0, 1]], [[5]], ["k"], "e", 1⟩ : ContextState).particleIds
        = (⟨4, [[0, 1]], [[2]], ["k"], "e", 1⟩ : ContextState).particleIds ∧
      (⟨4, [[0, 1]], [[5]], ["k"], "e", 1⟩ : ContextState).paramValues.length
        = (⟨4, [[0, 1]], [[2]], ["k"], "e", 1⟩ : ContextState).paramValues.length ∧
      (⟨4, [[0, 1]], [[5]], ["k"], "e", 1⟩ : ContextState).perBondParameterNames
        = (⟨4, [[0, 1]], [[2]], ["k"], "e", 1⟩ : ContextState).perBondParameterNames ∧
      (⟨4, [[0, 1]], [[5]], ["k"], "e", 1⟩ : ContextState).energyExpression
        = (⟨4, [[0, 1]], [[2]], ["k"], "e", 1⟩ : ContextState).energyExpression ∧
      (⟨4, [[0, 1]], [[5]], ["k"], "e", 1⟩ : ContextState).numParticles
        = (⟨4, [[0, 1]], [[2]], ["k"], "e", 1⟩ : ContextState).numParticles ∧
      (⟨4, [[0, 1]], [[5]], ["k"], "e", 1⟩ : ContextState).structuralBuildCount
        = (⟨4, [[0, 1]], [[2]], ["k"], "e", 1⟩ : ContextState).structuralBuildCount ∧
      (⟨4, [[0, 1]], [[5]], ["k"], "e", 1⟩ : ContextState).paramValues
        = (⟨2, "e", [⟨"k"⟩], [], [⟨[0, 1], [5]⟩], []⟩ : CustomCompoundBondForce).bonds.map
            (·.parameters)) :=
  ⟨rfl,
    claim_C1 (⟨2, "e", [⟨"k"⟩], [], [⟨[0, 1], [5]⟩], []⟩ : CustomCompoundBondForce)
      (⟨4, [[0, 1]], [[2]], ["k"], "e", 1⟩ : ContextState)
      (⟨4, [[0, 1]], [[5]], ["k"], "e", 1⟩ : ContextState) rfl⟩

theorem locateIndex_bracket {M : ℕ} (hM : 2 ≤ M) {sc : ℚ} (h0 : 0 ≤ sc)
    (h1 : sc ≤ (M : ℚ) - 1) :
    locateIndex M sc + 1 < M ∧ ((locateIndex M sc : ℕ) : ℚ) ≤ sc ∧
      sc ≤ ((locateIndex M sc : ℕ) : ℚ) + 1 := by
  have hfl : (0 : ℤ) ≤ ⌊sc⌋ := Int.floor_nonneg.mpr h0
  have htn : ((Int.toNat ⌊sc⌋ : ℕ) : ℤ) = ⌊sc⌋ := Int.toNat_of_nonneg hfl
  refine ⟨by unfold locateIndex; omega, ?_, ?_⟩
  · have : ((min (Int.toNat ⌊sc⌋) (M - 2) : ℕ) : ℚ) ≤ ((Int.toNat ⌊sc⌋ : ℕ) : ℚ) := by
      exact_mod_cast Nat.cast_le.mpr (Nat.min_le_left _ _)
    refine le_trans this ?_
    have : ((Int.toNat ⌊sc⌋ : ℕ) : ℚ) = ((⌊sc⌋ : ℤ) : ℚ) := by exact_mod_cast htn
    rw [this]
    exact Int.floor_le sc
  · unfold locateIndex
    rcases le_or_lt (Int.toNat ⌊sc⌋) (M - 2) with hc | hc
    · rw [min_eq_left hc]
      have hlt : sc < ((⌊sc⌋ : ℤ) : ℚ) + 1 := Int.lt_floor_add_one sc
      have : ((Int.toNat ⌊sc⌋ : ℕ) : ℚ) = ((⌊sc⌋ : ℤ) : ℚ) := by exact_mod_cast htn
      rw [this]
      exact hlt.le
    · rw [min_eq_right hc.le]
      have hcast : ((M - 2 : ℕ) : ℚ) = (M : ℚ) - 2 := by
        have := Nat.cast_sub (R := ℚ) hM
        simpa using this
      rw [hcast]
      linarith

theorem spacing_pos {s : SplineData} (hM : 2 ≤ s.ys.length)
    (hd : s.fmin < s.fmax) : 0 < s.spacing := by
  unfold SplineData.spacing
  have h1 : (1 : ℚ) ≤ (s.ys.length : ℚ) - 1 := by
    have h2 : (2 : ℚ) ≤ (s.ys.length : ℚ) := by exact_mod_cast hM
    linarith
  exact div_pos (by linarith) (by linarith)

theorem segmentValue_knot_left (s : SplineData) (i : ℕ) :
    s.segmentValue i (s.knot i) = s.ys.getD i 0 := by
  unfold SplineData.segmentValue
  dsimp only
  rw [sub_self, zero_div]
  ring

theorem segmentValue_knot_right (s : SplineData) (hp : 0 < s.spacing) (i : ℕ) :
    s.segmentValue i (s.knot (i + 1)) = s.ys.getD (i + 1) 0 := by
  unfold SplineData.segmentValue
  have hk : s.knot (i + 1) - s.knot i = s.spacing := by
    unfold SplineData.knot
    push_cast
    ring
  dsimp only
  rw [hk, div_self (ne_of_gt hp)]
  ring

/-- C2: for a tabulated function built from at least two uniformly spaced
samples over a non-empty domain, evaluation returns value 0 and derivative 0
outside the domain; inside the domain it returns the natural cubic spline
segment value and first derivative for a bracketing interval; and the
interpolant reproduces the source samples exactly at every grid point. -/
theorem claim_C2 (fi : FunctionInfo) (hM : 2 ≤ fi.values.length)
    (hd : fi.min < fi.max) :
    (∀ x, (x < fi.min ∨ fi.max < x) → (buildSpline fi).evaluate x = (0, 0)) ∧
    (∀ x, fi.min ≤ x → x ≤ fi.max → ∃ i, i + 1 < fi.values.length ∧
      (buildSpline fi).knot i ≤ x ∧ x ≤ (buildSpline fi).knot (i + 1) ∧
      (buildSpline fi).evaluate x
        = ((buildSpline fi).segmentValue i x, (buildSpline fi).segmentDeriv i x)) ∧
    (∀ j, j < fi.values.length →
      ((buildSpline fi).evaluate ((buildSpline fi).knot j)).1
        = fi.values.getD j 0) := by
  set s := buildSpline fi with hs
  have hM2 : 2 ≤ s.ys.length := hM
  have hd2 : s.fmin < s.fmax := hd
  have hp : 0 < s.spacing := spacing_pos hM2 hd2
  have hMcast : (2 : ℚ) ≤ (s.ys.length : ℚ) := by exact_mod_cast hM2
  have hspan : ((s.ys.length : ℚ) - 1) * s.spacing = s.fmax - s.fmin := by
    unfold SplineData.spacing
    rw [mul_comm]
    exact div_mul_cancel₀ _ (ne_of_gt (by linarith))
  refine ⟨?_, ?_, ?_⟩
  · intro x hx
    have hx2 : x < s.fmin ∨ s.fmax < x := hx
    show s.evaluate x = (0, 0)
    unfold SplineData.evaluate
    rw [if_pos hx2]
  · intro x hlo hhi
    have hlo2 : s.fmin ≤ x := hlo
    have hhi2 : x ≤ s.fmax := hhi
    have h0 : 0 ≤ (x - s.fmin) / s.spacing := div_nonneg (by linarith) hp.le
    have hscle : (x - s.fmin) / s.spacing ≤ (s.ys.length : ℚ) - 1 := by
      rw [div_le_iff₀ hp]
      linarith [hspan]
    obtain ⟨hi1, hi2, hi3⟩ := locateIndex_bracket hM2 h0 hscle
    have hscmul : (x - s.fmin) / s.spacing * s.spacing = x - s.fmin :=
      div_mul_cancel₀ _ (ne_of_gt hp)
    refine ⟨locateIndex s.ys.length ((x - s.fmin) / s.spacing), hi1, ?_, ?_, ?_⟩
    · show s.fmin + _ * s.spacing ≤ x
      have := mul_le_mul_of_nonneg_right hi2 hp.le
      linarith
    · show x ≤ s.fmin + _ * s.spacing
      have := mul_le_mul_of_nonneg_right hi3 hp.le
      push_cast
      push_cast at this
      linarith
    · unfold SplineData.evaluate
      rw [if_neg (by push_neg; exact ⟨hlo2, hhi2⟩)]
  · intro j hj
    have hin : ¬(s.knot j < s.fmin ∨ s.fmax < s.knot j) := by
      push_neg
      unfold SplineData.knot
      constructor
      · nlinarith [mul_nonneg (Nat.cast_nonneg (α := ℚ) j) hp.le]
      · have hjle : (j : ℚ) ≤ (s.ys.length : ℚ) - 1 := by
          have : (j : ℚ) + 1 ≤ (s.ys.length : ℚ) := by exact_mod_cast hj
          linarith
        nlinarith [mul_le_mul_of_nonneg_right hjle hp.le]
    have hscj : (s.knot j - s.fmin) / s.spacing = (j : ℚ) := by
      unfold SplineData.knot
      field_simp
    have hloc : locateIndex s.ys.length ((j : ℚ)) = min j (s.ys.length - 2) := by
      unfold locateIndex
      rw [Int.floor_natCast, Int.toNat_natCast]
    show (s.evaluate (s.knot j)).1 = _
    unfold SplineData.evaluate
    rw [if_neg hin]
    dsimp only
    rw [hscj, hloc]
    have hjlen : j < s.ys.length := hj
    rcases le_or_lt j (s.ys.length - 2) with hc | hc
    · rw [min_eq_left hc]
      exact segmentValue_knot_left s j
    · rw [min_eq_right hc.le]
      have hj1 : j = (s.ys.length - 2) + 1 := by omega
      rw [hj1, segmentValue_knot_right s hp (s.ys.length - 2)]
      rfl

/-- C2 witness: the spline built from three samples of x^2 on the domain from
0 to 2. -/
theorem claim_C2_witness :
    (2 ≤ ([0, 1, 4] : List ℚ).length ∧ (0 : ℚ) < 2) ∧
    ((∀ x, (x < (⟨"g", [0, 1, 4], 0, 2⟩ : FunctionInfo).min ∨
        (⟨"g", [0, 1, 4], 0, 2⟩ : FunctionInfo).max < x) →
      (buildSpline ⟨"g", [0, 1, 4], 0, 2⟩).evaluate x = (0, 0)) ∧
    (∀ x, (⟨"g", [0, 1, 4], 0, 2⟩ : FunctionInfo).min ≤ x →
      x ≤ (⟨"g", [0, 1, 4], 0, 2⟩ : FunctionInfo).max →
      ∃ i, i + 1 < (⟨"g", [0, 1, 4], 0, 2⟩ : FunctionInfo).values.length ∧
        (buildSpline ⟨"g", [0, 1, 4], 0, 2⟩).knot i ≤ x ∧
        x ≤ (buildSpline ⟨"g", [0, 1, 4], 0, 2⟩).knot (i + 1) ∧
        (buildSpline ⟨"g", [0, 1, 4], 0, 2⟩).evaluate x
          = ((buildSpline ⟨"g", [0, 1, 4], 0, 2⟩).segmentValue i x,
             (buildSpline ⟨"g", [0, 1, 4], 0, 2⟩).segmentDeriv i x)) ∧
    (∀ j, j < (⟨"g", [0, 1, 4], 0, 2⟩ : FunctionInfo).values.length →
      ((buildSpline ⟨"g", [0, 1, 4], 0, 2⟩).evaluate
          ((buildSpline ⟨"g", [0, 1, 4], 0, 2⟩).knot j)).1
        = (⟨"g", [0, 1, 4], 0, 2⟩ : FunctionInfo).values.getD j 0)) :=
  ⟨⟨by decide, by decide⟩, claim_C2 ⟨("g"), [0, 1, 4], 0, 2⟩ (by decide) (by decide)⟩

/-- C3: for a single bond with two particles and energy expression
`distance(p1,p2)` at distinct positions, the energy equals the Euclidean
distance between the two positions, and the two forces are opposite, lie
along the axis between the particles, and each has magnitude 1. -/
theorem claim_C3 (a b : Vec3) (hab : a ≠ b) :
    distBondEnergy a b = dist a b ∧
    distForceFirst a b + distForceSecond a b = 0 ∧
    (∃ c : ℝ, distForceFirst a b = c • (b - a)) ∧
    ‖distForceFirst a b‖ = 1 ∧ ‖distForceSecond a b‖ = 1 := by
  have hba : b - a ≠ 0 := sub_ne_zero_of_ne (Ne.symm hab)
  have hn : ‖b - a‖ ≠ 0 := norm_ne_zero_iff.mpr hba
  have hnn : (0 : ℝ) < ‖b - a‖ := norm_pos_iff.mpr hba
  refine ⟨?_, ?_, ?_, ?_, ?_⟩
  · unfold distBondEnergy distancePrim
    rw [dist_eq_norm]
    exact (norm_sub_rev a b).symm
  · unfold distForceFirst distForceSecond distGradFirst distGradSecond
    rw [neg_neg]
    exact add_neg_cancel _
  · exact ⟨1 / ‖b - a‖, by
      unfold distForceFirst distGradFirst
      rw [neg_neg]⟩
  · unfold distForceFirst distGradFirst
    rw [neg_neg, norm_smul, Real.norm_eq_abs, abs_of_nonneg (by positivity)]
    field_simp
  · unfold distForceSecond distGradSecond
    rw [norm_neg, norm_smul, Real.norm_eq_abs, abs_of_nonneg (by positivity)]
    field_simp

/-- C3 witness: two concrete distinct positions. -/
theorem claim_C3_witness :
    ((0 : Vec3) ≠ EuclideanSpace.single 0 5) ∧
    (distBondEnergy 0 (EuclideanSpace.single 0 5)
        = dist (0 : Vec3) (EuclideanSpace.single 0 5) ∧
      distForceFirst 0 (EuclideanSpace.single 0 5)
          + distForceSecond 0 (EuclideanSpace.single 0 5) = 0 ∧
      (∃ c : ℝ, distForceFirst 0 (EuclideanSpace.single 0 5)
          = c • (EuclideanSpace.single 0 5 - (0 : Vec3))) ∧
      ‖distForceFirst 0 (EuclideanSpace.single 0 5)‖ = 1 ∧
      ‖distForceSecond 0 (EuclideanSpace.single 0 5)‖ = 1) := by
  have hne : (0 : Vec3) ≠ EuclideanSpace.single 0 5 := by
    intro h
    have h0 := congrFun h 0
    simp [EuclideanSpace.single_apply] at h0
  exact ⟨hne, claim_C3 0 (EuclideanSpace.single 0 5) hne⟩

/-- C7: the built-ins satisfy step(x) = 0 for x less than 0 and 1 otherwise,
delta(x) = 1 exactly at 0 and 0 otherwise, and both have derivative 0 at
every point other than the discontinuity at 0. -/
theorem claim_C7 :
    (∀ x : ℝ, x < 0 → stepFn x = 0) ∧
    (∀ x : ℝ, 0 ≤ x → stepFn x = 1) ∧
    deltaFn 0 = 1 ∧
    (∀ x : ℝ, x ≠ 0 → deltaFn x = 0) ∧
    (∀ x : ℝ, x ≠ 0 → HasDerivAt stepFn 0 x) ∧
    (∀ x : ℝ, x ≠ 0 → HasDerivAt deltaFn 0 x) := by
  refine ⟨?_, ?_, ?_, ?_, ?_, ?_⟩
  · intro x hx
    simp [stepFn, hx]
  · intro x hx
    simp [stepFn, not_lt.mpr hx]
  · simp [deltaFn]
  · intro x hx
    simp [deltaFn, hx]
  · intro x hx
    rcases hx.lt_or_lt with hlt | hgt
    · have hev : stepFn =ᶠ[nhds x] fun _ => (0 : ℝ) := by
        filter_upwards [Iio_mem_nhds hlt] with y hy
        simp [stepFn, Set.mem_Iio.mp hy]
      exact hev.hasDerivAt_iff.mpr (hasDerivAt_const x 0)
    · have hev : stepFn =ᶠ[nhds x] fun _ => (1 : ℝ) := by
        filter_upwards [Ioi_mem_nhds hgt] with y hy
        simp [stepFn, not_lt.mpr (le_of_lt (Set.mem_Ioi.mp hy))]
      exact hev.hasDerivAt_iff.mpr (hasDerivAt_const x 1)
  · intro x hx
    have hev : deltaFn =ᶠ[nhds x] fun _ => (0 : ℝ) := by
      filter_upwards [eventually_ne_nhds hx] with y hy
      simp [deltaFn, hy]
    exact hev.hasDerivAt_iff.mpr (hasDerivAt_const x 0)

/-- C7 witness: the built-ins evaluated and differentiated at concrete
points. -/
theorem claim_C7_witness :
    stepFn (-1) = 0 ∧ stepFn 1 = 1 ∧ deltaFn 1 = 0 ∧
    HasDerivAt stepFn 0 1 ∧ HasDerivAt deltaFn 0 (-1) :=
  ⟨claim_C7.1 (-1) (by norm_num), claim_C7.2.1 1 (by norm_num),
    claim_C7.2.2.2.1 1 (by norm_num), claim_C7.2.2.2.2.1 1 (by norm_num),
    claim_C7.2.2.2.2.2 (-1) (by norm_num)⟩


theorem inner_eq_dotProduct (u v : Vec3) :
    (inner u v : ℝ) = Matrix.dotProduct (u : Fin 3 → ℝ) v := by
  simp [PiLp.inner_apply, Matrix.dotProduct, RCLike.inner_apply]

theorem crossProd_map (R : Vec3 ≃ₗᵢ[ℝ] Vec3) (hdet : IsProperRotation R)
    (u v : Vec3) : crossProd (R u) (R v) = R (crossProd u v) := by
  unfold IsProperRotation at hdet
  set f : (Fin 3 → ℝ) →ₗ[ℝ] (Fin 3 → ℝ) :=
    (R.toLinearEquiv : Vec3 →ₗ[ℝ] Vec3) with hf
  set M := LinearMap.toMatrix' f with hM
  have hfM : ∀ x : Fin 3 → ℝ, f x = M.mulVec x := by
    intro x
    conv_lhs => rw [← Matrix.toLin'_toMatrix' f]
    rw [Matrix.toLin'_apply]
  have hdet2 : M.det = 1 := by
    rw [hM, LinearMap.det_toMatrix']
    exact hdet
  have hrow : ∀ w' : Fin 3 → ℝ,
      Matrix.of ![f w', f u, f v]
        = Matrix.of ![w', (u : Fin 3 → ℝ), v] * M.transpose := by
    intro w'
    have happ : ∀ i : Fin 3, (![f w', f u, f v] : Fin 3 → Fin 3 → ℝ) i
        = f ((![w', (u : Fin 3 → ℝ), v] : Fin 3 → Fin 3 → ℝ) i) := by
      intro i
      fin_cases i <;> rfl
    ext i j
    rw [Matrix.of_apply, happ i, hfM, Matrix.mul_apply]
    simp [Matrix.mulVec, Matrix.dotProduct, Matrix.transpose_apply, mul_comm]
  have hkey : ∀ w' : Fin 3 → ℝ,
      Matrix.dotProduct (f w') (crossProduct (R := ℝ) (f u) (f v))
        = Matrix.dotProduct w' (crossProduct (R := ℝ) (u : Fin 3 → ℝ) v) := by
    intro w'
    rw [triple_product_eq_det, triple_product_eq_det]
    have h1 : Matrix.det ![f w', f u, f v]
        = Matrix.det (Matrix.of ![f w', f u, f v]) := rfl
    have h2 : Matrix.det ![w', (u : Fin 3 → ℝ), v]
        = Matrix.det (Matrix.of ![w', (u : Fin 3 → ℝ), v]) := rfl
    rw [h1, h2, hrow w', Matrix.det_mul, Matrix.det_transpose, hdet2, mul_one]
  refine ext_inner_left ℝ ?_
  intro w
  have hw : w = R (R.symm w) := (R.apply_symm_apply w).symm
  rw [hw, LinearIsometryEquiv.inner_map_map]
  rw [inner_eq_dotProduct, inner_eq_dotProduct]
  exact hkey (R.symm w)

open RealInnerProductSpace in
/-- C4: for a bond whose energy expression depends only on relative geometry
(an arbitrary function of the inter-particle distances, angles and signed
dihedrals, not of the raw coordinates), the total energy is unchanged under
rigid translation and under every proper rotation of all particles of the
bond, and the analytic force contributions on the bond's particles sum to
exactly zero. -/
theorem claim_C4 {n : ℕ}
    (g : (Fin n → Fin n → ℝ) → (Fin n → Fin n → Fin n → ℝ) →
      (Fin n → Fin n → Fin n → Fin n → ℝ) → ℝ)
    (p : Positions n) (hdiff : DifferentiableAt ℝ (relEnergy g) p) :
    (∀ v : Vec3, relEnergy g (translatePos p v) = relEnergy g p) ∧
    (∀ R : Vec3 ≃ₗᵢ[ℝ] Vec3, IsProperRotation R →
      relEnergy g (rotatePos R p) = relEnergy g p) ∧
    (∑ i, particleForce g p i) = 0 := by
  have htrans : ∀ v : Vec3, relEnergy g (translatePos p v) = relEnergy g p := by
    intro v
    have h1 : distMatrix (translatePos p v) = distMatrix p := by
      funext i j
      simp only [distMatrix, distancePrim, translatePos, add_sub_add_right_eq_sub]
    have h2 : angleMatrix (translatePos p v) = angleMatrix p := by
      funext i j k
      simp only [angleMatrix, anglePrim, translatePos, add_sub_add_right_eq_sub]
    have h3 : dihedralMatrix (translatePos p v) = dihedralMatrix p := by
      funext i j k l
      simp only [dihedralMatrix, dihedralPrim, translatePos, add_sub_add_right_eq_sub]
    unfold relEnergy
    rw [h1, h2, h3]
  refine ⟨htrans, ?_, ?_⟩
  · intro R hR
    have hcross : ∀ u v : Vec3, crossProd (R u) (R v) = R (crossProd u v) :=
      crossProd_map R hR
    have h1 : distMatrix (rotatePos R p) = distMatrix p := by
      funext i j
      simp only [distMatrix, distancePrim, rotatePos, ← map_sub,
        LinearIsometryEquiv.norm_map]
    have h2 : angleMatrix (rotatePos R p) = angleMatrix p := by
      funext i j k
      simp only [angleMatrix, anglePrim, rotatePos, ← map_sub, hcross,
        LinearIsometryEquiv.norm_map, LinearIsometryEquiv.inner_map_map]
    have h3 : dihedralMatrix (rotatePos R p) = dihedralMatrix p := by
      funext i j k l
      simp only [dihedralMatrix, dihedralPrim, rotatePos, ← map_sub, hcross,
        LinearIsometryEquiv.norm_map, LinearIsometryEquiv.inner_map_map]
    unfold relEnergy
    rw [h1, h2, h3]
  · set A := constTuple n with hA
    have haff : ∀ w : Vec3, p + A w = translatePos p w := by
      intro w
      rfl
    have hφ : (fun w : Vec3 => relEnergy g (p + A w)) = fun _ => relEnergy g p := by
      funext w
      rw [haff w]
      exact htrans w
    have hAder : HasFDerivAt (fun w : Vec3 => p + A w) (A : Vec3 →L[ℝ] Positions n) 0 :=
      (A.hasFDerivAt).const_add p
    have houter : HasFDerivAt (relEnergy g) (fderiv ℝ (relEnergy g) p)
        ((fun w : Vec3 => p + A w) 0) := by
      have h0 : (fun w : Vec3 => p + A w) 0 = p := by
        simp
      rw [h0]
      exact hdiff.hasFDerivAt
    have hcomp : HasFDerivAt (fun w : Vec3 => relEnergy g (p + A w))
        ((fderiv ℝ (relEnergy g) p).comp A) 0 := houter.comp 0 hAder
    have hconst : HasFDerivAt (fun w : Vec3 => relEnergy g (p + A w))
        (0 : Vec3 →L[ℝ] ℝ) 0 := by
      rw [hφ]
      exact hasFDerivAt_const _ _
    have hkey : (fderiv ℝ (relEnergy g) p).comp A = 0 := hcomp.unique hconst
    have hdir : ∀ v : Vec3, fderiv ℝ (relEnergy g) p (A v) = 0 := by
      intro v
      have := congrArg (fun L : Vec3 →L[ℝ] ℝ => L v) hkey
      simpa using this
    have hgrad : ∀ w : Positions n,
        ⟪gradient (relEnergy g) p, w⟫ = fderiv ℝ (relEnergy g) p w := by
      intro w
      unfold gradient
      rw [← InnerProductSpace.toDual_apply, LinearIsometryEquiv.apply_symm_apply]
    have hsum : ∀ v : Vec3, ⟪∑ i, gradient (relEnergy g) p i, v⟫ = 0 := by
      intro v
      rw [sum_inner]
      have hct : ∑ i, ⟪gradient (relEnergy g) p i, v⟫
          = ⟪gradient (relEnergy g) p, A v⟫ := by
        rw [PiLp.inner_apply]
        exact Finset.sum_congr rfl fun i _ => rfl
      rw [hct, hgrad, hdir]
    have hzero : (∑ i, gradient (relEnergy g) p i) = 0 :=
      inner_self_eq_zero.mp (hsum (∑ i, gradient (relEnergy g) p i))
    unfold particleForce
    rw [Finset.sum_neg_distrib, hzero, neg_zero]

/-- C4 witness: the inter-particle distance of a concrete two-particle bond at
unit separation, with the identity as a concrete proper rotation. -/
theorem claim_C4_witness :
    DifferentiableAt ℝ (relEnergy (n := 2) sampleRelGeom) samplePositions2 ∧
    IsProperRotation (LinearIsometryEquiv.refl ℝ Vec3) ∧
    ((∀ v : Vec3, relEnergy sampleRelGeom (translatePos samplePositions2 v)
        = relEnergy sampleRelGeom samplePositions2) ∧
      (∀ R : Vec3 ≃ₗᵢ[ℝ] Vec3, IsProperRotation R →
        relEnergy sampleRelGeom (rotatePos R samplePositions2)
          = relEnergy sampleRelGeom samplePositions2) ∧
      (∑ i, particleForce sampleRelGeom samplePositions2 i) = 0) ∧
    relEnergy sampleRelGeom
        (rotatePos (LinearIsometryEquiv.refl ℝ Vec3) samplePositions2)
      = relEnergy sampleRelGeom samplePositions2 := by
  have hdiff : DifferentiableAt ℝ (relEnergy (n := 2) sampleRelGeom)
      samplePositions2 := by
    have hre : relEnergy (n := 2) sampleRelGeom
        = fun q : Positions 2 => ‖q 1 - q 0‖ := rfl
    rw [hre]
    refine DifferentiableAt.norm ℝ ?_ ?_
    · exact ((PiLp.proj 2 (fun _ : Fin 2 => Vec3) 1 :
          Positions 2 →L[ℝ] Vec3).differentiable.sub
        (PiLp.proj 2 (fun _ : Fin 2 => Vec3) 0 :
          Positions 2 →L[ℝ] Vec3).differentiable).differentiableAt
    · show samplePositions2 1 - samplePositions2 0 ≠ 0
      have h1 : samplePositions2 1 = EuclideanSpace.single 0 1 := by
        unfold samplePositions2
        rw [if_neg (by decide)]
      have h0 : samplePositions2 0 = 0 := by
        unfold samplePositions2
        rw [if_pos rfl]
      rw [h1, h0, sub_zero]
      intro h
      have hc := congrFun h 0
      simp [EuclideanSpace.single_apply] at hc
  have hrot : IsProperRotation (LinearIsometryEquiv.refl ℝ Vec3) := by
    unfold IsProperRotation
    have hid : ((LinearIsometryEquiv.refl ℝ Vec3).toLinearEquiv : Vec3 →ₗ[ℝ] Vec3)
        = LinearMap.id := rfl
    rw [hid, LinearMap.det_id]
  exact ⟨hdiff, hrot, claim_C4 sampleRelGeom samplePositions2 hdiff,
    (claim_C4 sampleRelGeom samplePositions2 hdiff).2.1 _ hrot⟩
